import Mathlib

/-!
Shallow embedding of the cart → checkout → order pipeline of an e-commerce
backend (catalog, cart store, order assembler, promo engine, abandonment
tracker), together with proofs settling the specification claims.

JS numbers are modelled as ℚ, timestamps (milliseconds) as ℤ, Mongo document
ids as strings or naturals.  Fallible handlers return Except; state-mutating
handlers pass the store state explicitly.
-/

namespace ECom

/-! ### Promo engine, from src/src/models/PromoCode.js -/

inductive DiscountType
  | percentage
  | fixed
deriving DecidableEq, Repr

/-- A promo-code document (promoCodeSchema).  The schema gives
discountValue min 0, minOrderAmount min 0; maxDiscount and usageLimit
default to null ("no limit"). -/
structure PromoCode where
  code : String
  discountType : DiscountType
  discountValue : ℚ
  minOrderAmount : ℚ
  maxDiscount : Option ℚ
  usageLimit : Option ℕ
  usedCount : ℕ
  validFrom : ℤ
  validUntil : ℤ
  isActive : Bool
  applicableCategories : List String
deriving DecidableEq, Repr

/-- JS Math.round: round half toward +∞.  (Rat.floor is used rather than
the ⌊⌋ instance so that the definition evaluates by kernel reduction.) -/
def jsRound (x : ℚ) : ℤ := (x + 1 / 2).floor

/-- Math.round(x * 100) / 100, the 2-decimal rounding used by the code. -/
def round2 (x : ℚ) : ℚ := (jsRound (x * 100) : ℚ) / 100

/-- First step of calculateDiscount: percentage gives orderTotal × value /
100, fixed gives the value flat. -/
def rawDiscount (p : PromoCode) (orderTotal : ℚ) : ℚ :=
  match p.discountType with
  | .percentage => orderTotal * p.discountValue / 100
  | .fixed => p.discountValue

/-- if (this.maxDiscount !== null && discount > this.maxDiscount) discount = this.maxDiscount. -/
def capMax (maxDiscount : Option ℚ) (d : ℚ) : ℚ :=
  match maxDiscount with
  | some m => if d > m then m else d
  | none => d

/-- if (discount > orderTotal) discount = orderTotal. -/
def capTotal (orderTotal d : ℚ) : ℚ :=
  if d > orderTotal then orderTotal else d

/-- promoCodeSchema.methods.calculateDiscount: percentage or flat base,
clamped to maxDiscount when set, then to orderTotal, then rounded. -/
def calculateDiscount (p : PromoCode) (orderTotal : ℚ) : ℚ :=
  round2 (capTotal orderTotal (capMax p.maxDiscount (rawDiscount p orderTotal)))

def msgInactive : String := "This promo code is no longer active"

def msgNotYetValid : String := "This promo code is not yet valid"

def msgExpired : String := "This promo code has expired"

def msgUsageLimit : String := "This promo code has reached its usage limit"

/-- The template literal includes the configured minimum. -/
def msgMinOrder (p : PromoCode) : String :=
  "Minimum order amount is $" ++ toString p.minOrderAmount

def msgCategory : String := "This promo code is not valid for these items"

/-- usageLimit !== null && usedCount >= usageLimit. -/
def usageLimitReached (p : PromoCode) : Bool :=
  match p.usageLimit with
  | some l => p.usedCount ≥ l
  | none => false

/-- applicableCategories.length > 0 && category && !includes(category).
A missing category (JS null/undefined) is falsy, so the restriction is only
checked when a category is supplied. -/
def categoryViolated (p : PromoCode) (category : Option String) : Bool :=
  !p.applicableCategories.isEmpty &&
    (match category with
     | some c => !(p.applicableCategories.contains c)
     | none => false)

structure ValidationResult where
  isValid : Bool
  errors : List String
deriving DecidableEq, Repr

/-- promoCodeSchema.methods.validateForOrder: pushes one message per violated
rule, in source order, and succeeds exactly when no message was pushed. -/
def validateForOrder (p : PromoCode) (orderTotal : ℚ) (category : Option String)
    (now : ℤ) : ValidationResult :=
  let errors : List String :=
    (if !p.isActive then [msgInactive] else []) ++
    (if now < p.validFrom then [msgNotYetValid] else []) ++
    (if now > p.validUntil then [msgExpired] else []) ++
    (if usageLimitReached p then [msgUsageLimit] else []) ++
    (if orderTotal < p.minOrderAmount then [msgMinOrder p] else []) ++
    (if categoryViolated p category then [msgCategory] else [])
  { isValid := errors.isEmpty, errors := errors }

/-- code.toUpperCase(), written as a character map so that it evaluates by
kernel reduction (String.toUpper is the same map in fuelled form). -/
def jsToUpper (s : String) : String := String.mk (s.data.map Char.toUpper)

/-- PromoCode.findOne({ code: code.toUpperCase() }). -/
def findPromo (store : List PromoCode) (code : String) : Option PromoCode :=
  store.find? (fun p => p.code == jsToUpper code)

structure ApiError where
  status : ℕ
  message : String
deriving DecidableEq, Repr

/-- Response shape of POST /api/promo/validate (part_005, validatePromoCode):
on rule violations it carries error = errors[0] AND the full errors list. -/
inductive ValidateResponse
  | invalidCode
  | invalid (error : String) (errors : List String)
  | ok (discount : ℚ) (newTotal : ℚ)
deriving DecidableEq, Repr

def validatePromoCode (store : List PromoCode) (code : String) (orderTotal : ℚ)
    (category : Option String) (now : ℤ) : ValidateResponse :=
  match findPromo store code with
  | none => .invalidCode
  | some p =>
    let v := validateForOrder p orderTotal category now
    if v.isValid then
      .ok (calculateDiscount p orderTotal) (orderTotal - calculateDiscount p orderTotal)
    else
      .invalid (v.errors.headD "") v.errors

/-- POST /api/promo/apply (part_005, applyPromoCode): validates WITHOUT the
category argument, throws ApiError(400, validation.errors[0]) carrying only
the first violated rule, and on success increments usedCount and saves. -/
def applyPromoCode (store : List PromoCode) (code : String) (orderTotal : ℚ)
    (now : ℤ) : Except ApiError (List PromoCode × ℚ) :=
  match findPromo store code with
  | none => .error ⟨404, "Invalid promo code"⟩
  | some p =>
    let v := validateForOrder p orderTotal none now
    if v.isValid then
      let p' := { p with usedCount := p.usedCount + 1 }
      .ok (store.map (fun q => if q.code == p.code then p' else q),
           calculateDiscount p orderTotal)
    else
      .error ⟨400, v.errors.headD ""⟩

/-! Spec-side view of the six promo rules, used to state that
validateForOrder collects every violated rule. -/

inductive PromoRule
  | inactive
  | notYetValid
  | expired
  | usageLimit
  | belowMinimum
  | categoryRestricted
deriving DecidableEq, Repr

def ruleViolated (p : PromoCode) (orderTotal : ℚ) (category : Option String)
    (now : ℤ) : PromoRule → Bool
  | .inactive => !p.isActive
  | .notYetValid => decide (now < p.validFrom)
  | .expired => decide (now > p.validUntil)
  | .usageLimit => usageLimitReached p
  | .belowMinimum => decide (orderTotal < p.minOrderAmount)
  | .categoryRestricted => categoryViolated p category

def ruleMessage (p : PromoCode) : PromoRule → String
  | .inactive => msgInactive
  | .notYetValid => msgNotYetValid
  | .expired => msgExpired
  | .usageLimit => msgUsageLimit
  | .belowMinimum => msgMinOrder p
  | .categoryRestricted => msgCategory

/-- The six checks in source order. -/
def promoRules : List PromoRule :=
  [.inactive, .notYetValid, .expired, .usageLimit, .belowMinimum, .categoryRestricted]

/-! Concrete promo codes used in witnesses and counterexamples. -/

/-- A flat-10 code with no cap, valid and active. -/
def promoFlat10 : PromoCode :=
  { code := "FLAT10", discountType := .fixed, discountValue := 10,
    minOrderAmount := 0, maxDiscount := none, usageLimit := none,
    usedCount := 0, validFrom := 0, validUntil := 2000000000000,
    isActive := true, applicableCategories := [] }

/-- The spec's SAVE10 example: 10 percent, capped at 15. -/
def promoSave10 : PromoCode :=
  { code := "SAVE10", discountType := .percentage, discountValue := 10,
    minOrderAmount := 0, maxDiscount := some 15, usageLimit := none,
    usedCount := 0, validFrom := 0, validUntil := 2000000000000,
    isActive := true, applicableCategories := [] }

/-- An inactive code with a 50 minimum: an order of 10 violates two rules. -/
def promoTwoBroken : PromoCode :=
  { code := "OFF", discountType := .percentage, discountValue := 10,
    minOrderAmount := 50, maxDiscount := none, usageLimit := none,
    usedCount := 0, validFrom := 0, validUntil := 100,
    isActive := false, applicableCategories := [] }

/-! ### Catalog, from src/src/models/Product.js -/

structure Variant where
  vid : String
  sku : String
  regularPrice : ℚ
  salePrice : ℚ
  stock : ℤ
  sells : ℤ
  images : List String
deriving DecidableEq, Repr

structure Product where
  pid : String
  name : String
  brand : String
  category : String
  images : List String
  variants : List Variant
deriving DecidableEq, Repr

/-- Product.findById(id). -/
def findProduct (catalog : List Product) (id : String) : Option Product :=
  catalog.find? (fun p => p.pid == id)

/-- product.variants.find(v => v._id.toString() === variantId). -/
def findVariant (p : Product) (vid : String) : Option Variant :=
  p.variants.find? (fun v => v.vid == vid)

/-- variant.salePrice > 0 ? salePrice : regularPrice. -/
def effectivePrice (v : Variant) : ℚ :=
  if v.salePrice > 0 then v.salePrice else v.regularPrice

/-- Replace the first element satisfying f by its image under g (the
behaviour of a Mongo positional update and of mutating a found element). -/
def updateFirst {α : Type} : List α → (α → Bool) → (α → α) → List α
  | [], _, _ => []
  | x :: xs, f, g => if f x then g x :: xs else x :: updateFirst xs f g

/-! ### Order assembler, from src/unnamed/part_004 (first order controller) -/

/-- A line of req.body.items: productId, variantId and quantity drive the
validation; name appears only in the product-not-found message; price is the
client-submitted unit price, which the handler never reads. -/
structure ReqItem where
  productId : String
  variantId : String
  name : String
  price : ℚ
  quantity : ℤ
deriving DecidableEq, Repr

/-- A snapshotted order line as pushed onto validatedItems. -/
structure OrderItem where
  productId : String
  variantId : String
  name : String
  sku : String
  image : Option String
  price : ℚ
  quantity : ℤ
  totalPrice : ℚ
  brand : String
  cat : String
deriving DecidableEq, Repr

/-- variant.images?.[0] || product.images?.[0]. -/
def firstImage (v : Variant) (p : Product) : Option String :=
  match v.images.head? with
  | some i => some i
  | none => p.images.head?

/-- One pass of the createOrder validation loop (part_004 lines 124-158):
resolve the product, locate the variant, check stock, snapshot the item at
the catalog-derived unit price. -/
def validateItem (catalog : List Product) (it : ReqItem) : Except ApiError OrderItem :=
  match findProduct catalog it.productId with
  | none =>
    .error ⟨404, "Product not found: " ++ (if it.name = "" then it.productId else it.name)⟩
  | some p =>
    match findVariant p it.variantId with
    | none => .error ⟨404, "Variant not found for product " ++ p.name⟩
    | some v =>
      if v.stock < it.quantity then
        .error ⟨400, "Insufficient stock for " ++ p.name ++ " (" ++ v.sku ++ ")"⟩
      else
        .ok { productId := p.pid, variantId := v.vid, name := p.name, sku := v.sku,
              image := firstImage v p, price := effectivePrice v, quantity := it.quantity,
              totalPrice := effectivePrice v * (it.quantity : ℚ),
              brand := p.brand, cat := p.category }

/-- The whole validation loop: the snapshotted items in request order and the
accumulated validatedTotal; the first failing item throws. -/
def validateItems (catalog : List Product) :
    List ReqItem → Except ApiError (List OrderItem × ℚ)
  | [] => .ok ([], 0)
  | it :: rest =>
    match validateItem catalog it with
    | .error e => .error e
    | .ok oi =>
      match validateItems catalog rest with
      | .error e => .error e
      | .ok (ois, tot) => .ok (oi :: ois, oi.totalPrice + tot)

structure StatusEntry where
  status : String
  timestamp : ℤ
  note : String
deriving DecidableEq, Repr

structure Order where
  orderId : String
  items : List OrderItem
  amount : ℚ
  orderStatus : String
  statusHistory : List StatusEntry
  email : String
  name : String
  createdAt : ℤ
deriving DecidableEq, Repr

/-- String.padStart(len, c). -/
def padStart (len : ℕ) (c : Char) (s : String) : String :=
  if s.length ≥ len then s
  else String.mk (List.replicate (len - s.length) c) ++ s

/-- The ORD + YYYYMMDD key of generateOrderId: getFullYear unpadded, month
and day padded to two digits. -/
def todayKey (y m d : ℕ) : String :=
  "ORD" ++ toString y ++ padStart 2 '0' (toString m) ++ padStart 2 '0' (toString d)

/-- The regex test ^key on an order id, written over the character lists so
that it evaluates by kernel reduction (same as String.startsWith). -/
def startsWithKey (key s : String) : Bool :=
  key.data.isPrefixOf s.data

/-- orderId.replace(todayPrefix, '') for the matched orders, whose ids start
with the key: drop that many leading characters. -/
def dropKey (key s : String) : String :=
  if startsWithKey key s then String.mk (s.data.drop key.data.length) else s

/-- parseInt(s, 10) restricted to the suffix strings arising here: the value
of the leading run of decimal digits, none (NaN) when there is no digit. -/
def parseIntDigits (s : String) : Option ℕ :=
  match s.data.takeWhile Char.isDigit with
  | [] => none
  | ds => some (ds.foldl (fun n c => n * 10 + (c.toNat - '0'.toNat)) 0)

/-- Order.findOne({orderId: /^todayPrefix/}).sort({createdAt: -1}): the
matching order created last; ties on the timestamp keep the earlier listed
document (Mongo leaves the tie order unspecified). -/
def latestMatching (orders : List Order) (key : String) : Option Order :=
  match orders.filter (fun o => startsWithKey key o.orderId) with
  | [] => none
  | o :: os => some (os.foldl (fun b o' => if o'.createdAt > b.createdAt then o' else b) o)

/-- generateOrderId (part_004 lines 86-106). -/
def generateOrderId (orders : List Order) (y m d : ℕ) : String :=
  let key := todayKey y m d
  let nextNum : ℕ :=
    match latestMatching orders key with
    | none => 1
    | some o =>
      match parseIntDigits (dropKey key o.orderId) with
      | none => 1
      | some n => n + 1
  key ++ padStart 4 '0' (toString nextNum)

/-- Spec-side sequence rule, stated from the spec's words for comparison
with generateOrderId: one greater than the highest sequence number among
orders already created for the current date, 1 when none exist. -/
def specNextSeq (orders : List Order) (key : String) : ℕ :=
  match (orders.filter (fun o => startsWithKey key o.orderId)).filterMap
      (fun o => parseIntDigits (dropKey key o.orderId)) with
  | [] => 1
  | seqs => seqs.foldl max 0 + 1

/-- Spec-side order id built from specNextSeq. -/
def specOrderId (orders : List Order) (y m d : ℕ) : String :=
  todayKey y m d ++ padStart 4 '0' (toString (specNextSeq orders (todayKey y m d)))

/-- The fields of req.body that createOrder reads: the client-submitted
amount is destructured away and never persisted; shippingCost stands for
otherOrderData.shippingCost || 0. -/
structure OrderReq where
  items : List ReqItem
  amount : ℚ
  shippingCost : ℚ
  email : String
  name : String
deriving DecidableEq, Repr

/-- The store state a checkout touches: the order collection and the
product catalog. -/
structure St where
  orders : List Order
  catalog : List Product
deriving DecidableEq, Repr

/-- The $inc of part_004 lines 186-200 on the positionally matched variant. -/
def decVariant (p : Product) (vid : String) (q : ℤ) : Product :=
  { p with
    variants := updateFirst p.variants (fun v => v.vid == vid)
      (fun v => { v with stock := v.stock - q, sells := v.sells + q }) }

/-- Product.updateOne({_id: pid, 'variants._id': vid}, {$inc: {stock: -q,
sells: q}}): update the first document matching both ids; a plain $inc with
no stock condition in the filter. -/
def decrementStock (catalog : List Product) (pid vid : String) (q : ℤ) : List Product :=
  updateFirst catalog
    (fun p => p.pid == pid && p.variants.any (fun v => v.vid == vid))
    (fun p => decVariant p vid q)

/-- POST /api/orders (part_004 createOrder, lines 113-220).  y m d and now
stand for new Date(); every ApiError is thrown before Order.create and the
stock loop, so the failing branches return the state unchanged. -/
def createOrder (st : St) (req : OrderReq) (y m d : ℕ) (now : ℤ) :
    Except ApiError Order × St :=
  if req.items.isEmpty then (.error ⟨400, "Order items are required"⟩, st)
  else
    match validateItems st.catalog req.items with
    | .error e => (.error e, st)
    | .ok (vitems, vtotal) =>
      let order : Order :=
        { orderId := generateOrderId st.orders y m d, items := vitems,
          amount := vtotal + req.shippingCost, orderStatus := "pending",
          statusHistory := [{ status := "pending", timestamp := now, note := "Order placed" }],
          email := req.email, name := req.name, createdAt := now }
      let catalog' := vitems.foldl
        (fun c oi => decrementStock c oi.productId oi.variantId oi.quantity) st.catalog
      (.ok order, { orders := st.orders ++ [order], catalog := catalog' })

/-- Zero the client-submitted unit prices and the client-submitted total of
a request, keeping every field the handler reads. -/
def stripClientPrices (req : OrderReq) : OrderReq :=
  { req with amount := 0, items := req.items.map (fun it => { it with price := 0 }) }

/-- The snapshot relation between a request line and a persisted order item:
the item comes from the catalog product and variant the request references,
priced at the catalog's effective price. -/
def itemFromCatalog (catalog : List Product) (it : ReqItem) (oi : OrderItem) : Prop :=
  ∃ p v, findProduct catalog it.productId = some p ∧
    findVariant p it.variantId = some v ∧
    oi.price = effectivePrice v ∧ oi.quantity = it.quantity ∧
    oi.totalPrice = effectivePrice v * (it.quantity : ℚ)

/-! ### Interleaved checkouts (claim C3): each in-flight checkout performs
the step-2 stock pre-check (validateItem) and later the step-7 decrement
(decrementStock), and the two phases of concurrent checkouts interleave. -/

inductive Phase
  | pending
  | validated
  | rejected
  | committed
deriving DecidableEq, Repr

structure Session where
  item : ReqItem
  phase : Phase
deriving DecidableEq, Repr

inductive CoAction
  | validate (i : ℕ)
  | commit (i : ℕ)
deriving DecidableEq, Repr

/-- One interleaved step: validate runs createOrder's pre-check against the
current catalog; commit runs the unconditional $inc. -/
def coStep (s : List Product × List Session) (a : CoAction) :
    List Product × List Session :=
  match a with
  | .validate i =>
    match s.2[i]? with
    | some sess =>
      if sess.phase = .pending then
        match validateItem s.1 sess.item with
        | .ok _ => (s.1, s.2.set i { sess with phase := .validated })
        | .error _ => (s.1, s.2.set i { sess with phase := .rejected })
      else s
    | none => s
  | .commit i =>
    match s.2[i]? with
    | some sess =>
      if sess.phase = .validated then
        (decrementStock s.1 sess.item.productId sess.item.variantId sess.item.quantity,
         s.2.set i { sess with phase := .committed })
      else s
    | none => s

def coRun (catalog : List Product) (sessions : List Session)
    (trace : List CoAction) : List Product × List Session :=
  trace.foldl coStep (catalog, sessions)

/-! ### Cart store, from src/src/controllers/paymentController.js and
src/src/models/Cart.js -/

structure CItem where
  product : String
  variantId : String
  quantity : ℤ
deriving DecidableEq, Repr

structure CartDoc where
  cid : ℕ
  user : Option String
  sessionId : Option String
  items : List CItem
  lastActivityAt : ℤ
deriving DecidableEq, Repr

/-- Cart.findOne({ sessionId }). -/
def findBySession (carts : List CartDoc) (sid : String) : Option CartDoc :=
  carts.find? (fun c => c.sessionId == some sid)

/-- Cart.findOne({ user }). -/
def findByUser (carts : List CartDoc) (uid : String) : Option CartDoc :=
  carts.find? (fun c => c.user == some uid)

/-- Total quantity a list of cart lines holds for one product+variant key. -/
def qtyOf (items : List CItem) (pid vid : String) : ℤ :=
  ((items.filter (fun it => it.product == pid && it.variantId == vid)).map
    (fun it => it.quantity)).sum

/-- item.product.toString() === guestItem.productId && item.variantId ===
guestItem.variantId. -/
def keyMatch (g it : CItem) : Bool :=
  it.product == g.product && it.variantId == g.variantId

/-- One pass of the merge forEach: add to the first matching account line or
push the guest line. -/
def mergeOne (items : List CItem) (g : CItem) : List CItem :=
  if items.any (keyMatch g) then
    updateFirst items (keyMatch g) (fun it => { it with quantity := it.quantity + g.quantity })
  else items ++ [g]

/-- itemsToMerge.forEach(...) over the account cart's items. -/
def mergeItems (items gs : List CItem) : List CItem :=
  gs.foldl mergeOne items

/-- At most one cart line per product+variant pair. -/
def NoDupKeys (items : List CItem) : Prop :=
  (items.map (fun it => (it.product, it.variantId))).Nodup

/-- A primitive cart-store write, in the order the handler issues them. -/
inductive CartOp
  | deleteCart (cid : ℕ)
  | saveCart (c : CartDoc)
deriving DecidableEq, Repr

def applyCartOp (carts : List CartDoc) : CartOp → List CartDoc
  | .deleteCart cid => carts.filter (fun c => c.cid != cid)
  | .saveCart c =>
    if carts.any (fun c' => c'.cid == c.cid) then
      updateFirst carts (fun c' => c'.cid == c.cid) (fun _ => c)
    else carts ++ [c]

inductive CartResp
  | emptyItems
  | cart (c : CartDoc)
deriving DecidableEq, Repr

/-- POST /api/cart/merge (paymentController.mergeCart, lines 260-325): the
store writes in the order the code performs them, and the response.
guestItems models the req.body fallback (empty when not supplied); freshId
models the ObjectId minted by new Cart(...).  The code deletes the guest
cart immediately after reading its items and reads the account cart after
that deletion, so the account lookup runs against the deleted-guest state. -/
def mergeCartOps (carts : List CartDoc) (uid : String) (sid : Option String)
    (guestItems : List CItem) (now : ℤ) (freshId : ℕ) : List CartOp × CartResp :=
  let guestFetch : Option CartDoc :=
    match sid with
    | some s =>
      match findBySession carts s with
      | some g => if g.items.isEmpty then none else some g
      | none => none
    | none => none
  match guestFetch with
  | some g =>
    let afterDelete := applyCartOp carts (.deleteCart g.cid)
    let base : CartDoc :=
      match findByUser afterDelete uid with
      | some a => a
      | none => { cid := freshId, user := some uid, sessionId := none,
                  items := [], lastActivityAt := now }
    let merged := { base with items := mergeItems base.items g.items, lastActivityAt := now }
    ([.deleteCart g.cid, .saveCart merged], .cart merged)
  | none =>
    if guestItems.isEmpty then
      match findByUser carts uid with
      | some a => ([], .cart a)
      | none => ([], .emptyItems)
    else
      let base : CartDoc :=
        match findByUser carts uid with
        | some a => a
        | none => { cid := freshId, user := some uid, sessionId := none,
                    items := [], lastActivityAt := now }
      let merged := { base with items := mergeItems base.items guestItems, lastActivityAt := now }
      ([.saveCart merged], .cart merged)

/-- The merge endpoint's net effect on the cart store plus its response. -/
def mergeCart (carts : List CartDoc) (uid : String) (sid : Option String)
    (guestItems : List CItem) (now : ℤ) (freshId : ℕ) : List CartDoc × CartResp :=
  let r := mergeCartOps carts uid sid guestItems now freshId
  (r.1.foldl applyCartOp carts, r.2)

/-- The query identity of getCart/updateCart/clearCart: userId ? { user } :
{ sessionId }. -/
inductive Owner
  | user (uid : String)
  | session (sid : String)
deriving DecidableEq, Repr

def ownerMatches (o : Owner) (c : CartDoc) : Bool :=
  match o with
  | .user uid => c.user == some uid
  | .session sid => c.sessionId == some sid

def findByOwner (carts : List CartDoc) (o : Owner) : Option CartDoc :=
  carts.find? (ownerMatches o)

/-- POST /api/cart (paymentController.updateCart, lines 171-224): an empty
list deletes the cart (and its tracking record, not modelled here);
otherwise the mapped items array is $set verbatim, upserting the cart. -/
def updateCart (carts : List CartDoc) (owner : Owner) (items : List CItem)
    (now : ℤ) (freshId : ℕ) : List CartDoc × CartResp :=
  if items.isEmpty then
    (match findByOwner carts owner with
     | some c => carts.filter (fun c' => c'.cid != c.cid)
     | none => carts,
     .emptyItems)
  else
    match findByOwner carts owner with
    | some c =>
      let c' := { c with items := items, lastActivityAt := now }
      (updateFirst carts (fun x => x.cid == c.cid) (fun _ => c'), .cart c')
    | none =>
      let c' : CartDoc :=
        { cid := freshId,
          user := match owner with | .user uid => some uid | .session _ => none,
          sessionId := match owner with | .user _ => none | .session s => some s,
          items := items, lastActivityAt := now }
      (carts ++ [c'], .cart c')

/-! ### Abandonment sweep, from src/src/controllers/cronController.js and
the first phase of paymentController.getAbandonedCarts -/

/-- The funnel stages of abandonedCartSchema: cart_added, checkout_started,
checkout_info_filled, converted, abandoned. -/
inductive Stage
  | cartAdded
  | checkoutStarted
  | checkoutInfoFilled
  | converted
  | abandoned
deriving DecidableEq, Repr

structure ACRecord where
  aid : ℕ
  stage : Stage
  lastActivityAt : ℤ
  abandonedAt : Option ℤ
deriving DecidableEq, Repr

/-- The updateMany filter: stage in ['checkout_started',
'checkout_info_filled'] and lastActivityAt < now - threshold. -/
def sweepMatches (now threshold : ℤ) (r : ACRecord) : Bool :=
  (r.stage == .checkoutStarted || r.stage == .checkoutInfoFilled) &&
    decide (r.lastActivityAt < now - threshold)

def sweepOne (now threshold : ℤ) (r : ACRecord) : ACRecord :=
  if sweepMatches now threshold r then
    { r with stage := .abandoned, abandonedAt := some now }
  else r

/-- processAbandonedCarts / the sweep phase of getAbandonedCarts: updateMany
with the $set over every matching record. -/
def sweep (now threshold : ℤ) (recs : List ACRecord) : List ACRecord :=
  recs.map (sweepOne now threshold)

/-- Spec-side notion of an active (non-terminal) funnel stage. -/
def isActiveStage (s : Stage) : Bool :=
  s != .converted && s != .abandoned

/-! ### Concrete inputs for witnesses and counterexamples -/

/-- Scenario 1 of the spec: V1 with stock 5, salePrice 0, regularPrice 20. -/
def variantS1 : Variant :=
  { vid := "V1", sku := "SKU1", regularPrice := 20, salePrice := 0,
    stock := 5, sells := 0, images := [] }

def productS1 : Product :=
  { pid := "P1", name := "P1", brand := "B", category := "C",
    images := ["img"], variants := [variantS1] }

def stateS1 : St := { orders := [], catalog := [productS1] }

def reqS1 : OrderReq :=
  { items := [{ productId := "P1", variantId := "V1", name := "P1",
                price := 999, quantity := 3 }],
    amount := 12345, shippingCost := 0, email := "", name := "" }

/-- The order scenario 1 produces: one line at the catalog price 20,
line total 60, amount 60, first id of the day. -/
def ordS1 : Order :=
  { orderId := "ORD202610110001",
    items := [{ productId := "P1", variantId := "V1", name := "P1", sku := "SKU1",
                image := some "img", price := 20, quantity := 3, totalPrice := 60,
                brand := "B", cat := "C" }],
    amount := 60, orderStatus := "pending",
    statusHistory := [{ status := "pending", timestamp := 0, note := "Order placed" }],
    email := "", name := "", createdAt := 0 }

/-- Scenario 2 of the spec: the same cart but V1.stock = 2. -/
def variantS2 : Variant := { variantS1 with stock := 2 }

def productS2 : Product := { productS1 with variants := [variantS2] }

def stateS2 : St := { orders := [], catalog := [productS2] }

/-- An all-blank order, a base for literals. -/
def ordBlank : Order :=
  { orderId := "", items := [], amount := 0, orderStatus := "",
    statusHistory := [], email := "", name := "", createdAt := 0 }

/-- Today-keyed order with sequence 0002, created first. -/
def ordSeq2 : Order := { ordBlank with orderId := "ORD202610110002", createdAt := 1 }

/-- Today-keyed order with sequence 0001, created last. -/
def ordSeq1 : Order := { ordBlank with orderId := "ORD202610110001", createdAt := 2 }

/-- C3's failing input: one variant with stock 3 and two concurrent
checkouts of quantity 2 each. -/
def variantC3 : Variant :=
  { vid := "V1", sku := "S", regularPrice := 10, salePrice := 0,
    stock := 3, sells := 0, images := [] }

def productC3 : Product :=
  { pid := "P1", name := "P", brand := "", category := "",
    images := [], variants := [variantC3] }

def sessC3 : Session :=
  { item := { productId := "P1", variantId := "V1", name := "",
              price := 0, quantity := 2 },
    phase := .pending }

/-- The spec's merge example: guest cart with A:2 and B:1. -/
def guestCartAB : CartDoc :=
  { cid := 1, user := none, sessionId := some "s",
    items := [⟨"A", "V", 2⟩, ⟨"B", "V", 1⟩], lastActivityAt := 0 }

/-- The spec's merge example: account cart with A:1 and C:3. -/
def acctCartAC : CartDoc :=
  { cid := 2, user := some "u", sessionId := none,
    items := [⟨"A", "V", 1⟩, ⟨"C", "V", 3⟩], lastActivityAt := 0 }

/-- The cart the example merge responds with: A summed to 3, C preserved,
B appended. -/
def mergedW : CartDoc :=
  { cid := 2, user := some "u", sessionId := none,
    items := [⟨"A", "V", 3⟩, ⟨"C", "V", 3⟩, ⟨"B", "V", 1⟩], lastActivityAt := 5 }

/-- A stale tracking record still in the cart_added stage. -/
def staleCartAdded : ACRecord :=
  { aid := 1, stage := .cartAdded, lastActivityAt := 0, abandonedAt := none }

/-- Scenario 6 of the spec: checkout_info_filled, last active two hours
before a sweep with a one-hour threshold. -/
def staleInfoFilled : ACRecord :=
  { aid := 2, stage := .checkoutInfoFilled, lastActivityAt := 0, abandonedAt := none }

/-! ### Theorems -/

section Theorems

attribute [local semireducible] Rat.add Rat.mul Rat.inv Rat.sub

theorem jsRound_eq (x : ℚ) : jsRound x = ⌊x + 1 / 2⌋ := by
  rw [jsRound, Rat.floor_def', Rat.floor_def]

theorem round2_nonneg {x : ℚ} (hx : 0 ≤ x) : 0 ≤ round2 x := by
  have h : (0 : ℤ) ≤ jsRound (x * 100) := by
    rw [jsRound_eq]
    exact Int.floor_nonneg.mpr (by linarith)
  unfold round2
  have h' : (0 : ℚ) ≤ (jsRound (x * 100) : ℚ) := by exact_mod_cast h
  positivity

theorem round2_mono {x y : ℚ} (h : x ≤ y) : round2 x ≤ round2 y := by
  unfold round2
  have hf : jsRound (x * 100) ≤ jsRound (y * 100) := by
    rw [jsRound_eq, jsRound_eq]
    exact Int.floor_le_floor (by linarith)
  have hf' : (jsRound (x * 100) : ℚ) ≤ (jsRound (y * 100) : ℚ) := by exact_mod_cast hf
  linarith

theorem round2_cents (n : ℤ) : round2 ((n : ℚ) / 100) = (n : ℚ) / 100 := by
  unfold round2
  rw [jsRound_eq, div_mul_cancel₀ _ (by norm_num : (100 : ℚ) ≠ 0)]
  have h : ⌊(n : ℚ) + 1 / 2⌋ = n + ⌊(1 / 2 : ℚ)⌋ := Int.floor_int_add n _
  have h2 : ⌊(1 / 2 : ℚ)⌋ = 0 := by
    rw [Int.floor_eq_zero_iff]
    constructor <;> norm_num
  rw [h, h2, add_zero]

theorem rawDiscount_nonneg (p : PromoCode) (t : ℚ) (ht : 0 ≤ t)
    (hv : 0 ≤ p.discountValue) : 0 ≤ rawDiscount p t := by
  unfold rawDiscount
  cases p.discountType <;> simp <;> positivity

theorem capMax_nonneg {md : Option ℚ} {d : ℚ} (hd : 0 ≤ d)
    (hm : ∀ m ∈ md, 0 ≤ m) : 0 ≤ capMax md d := by
  cases md with
  | none => simpa [capMax] using hd
  | some m =>
    have h0 : 0 ≤ m := hm m rfl
    by_cases h : d > m <;> simp [capMax, h] <;> linarith

theorem capMax_le {d m : ℚ} : capMax (some m) d ≤ m := by
  by_cases h : d > m <;> simp [capMax, h] <;> linarith

theorem capTotal_nonneg {t d : ℚ} (ht : 0 ≤ t) (hd : 0 ≤ d) :
    0 ≤ capTotal t d := by
  by_cases h : d > t <;> simp [capTotal, h] <;> linarith

theorem capTotal_le_total {t d : ℚ} : capTotal t d ≤ t := by
  by_cases h : d > t <;> simp [capTotal, h] <;> linarith

theorem capTotal_le_self {t d : ℚ} : capTotal t d ≤ d := by
  by_cases h : d > t <;> simp [capTotal, h] <;> linarith

/-- C5 counterexample: on the sub-cent order total 0.006 with a flat-10 code,
the computed discount is rounded up to 0.01, which exceeds the order total —
so the claimed bound discount ≤ orderTotal does not always hold. -/
theorem calculateDiscount_exceeds_subcent_total :
    calculateDiscount promoFlat10 (3 / 500) = 1 / 100 ∧
      3 / 500 < calculateDiscount promoFlat10 (3 / 500) := by
  constructor <;> decide

/-- C5: the discount is the clamped-then-rounded catalog formula and, for
order totals (and caps, when set) that are a whole number of cents and
nonnegative, it satisfies 0 ≤ discount ≤ orderTotal and discount ≤
maxDiscount whenever maxDiscount is set. -/
theorem calculateDiscount_bounded (p : PromoCode) (t : ℚ)
    (ht : 0 ≤ t) (hv : 0 ≤ p.discountValue)
    (htc : ∃ n : ℤ, t = (n : ℚ) / 100)
    (hmax : ∀ m ∈ p.maxDiscount, 0 ≤ m ∧ ∃ n : ℤ, m = (n : ℚ) / 100) :
    0 ≤ calculateDiscount p t ∧ calculateDiscount p t ≤ t ∧
      ∀ m ∈ p.maxDiscount, calculateDiscount p t ≤ m := by
  have hraw : 0 ≤ rawDiscount p t := rawDiscount_nonneg p t ht hv
  have hcap : 0 ≤ capMax p.maxDiscount (rawDiscount p t) :=
    capMax_nonneg hraw (fun m hm => (hmax m hm).1)
  refine ⟨round2_nonneg (capTotal_nonneg ht hcap), ?_, ?_⟩
  · obtain ⟨n, rfl⟩ := htc
    calc round2 (capTotal ((n : ℚ) / 100) (capMax p.maxDiscount (rawDiscount p ((n : ℚ) / 100))))
        ≤ round2 ((n : ℚ) / 100) := round2_mono capTotal_le_total
      _ = (n : ℚ) / 100 := round2_cents n
  · intro m hm
    obtain ⟨hm0, n, hn⟩ := hmax m hm
    have h1 : capTotal t (capMax p.maxDiscount (rawDiscount p t)) ≤ m := by
      have h2 : capMax p.maxDiscount (rawDiscount p t) ≤ m := by
        have heq : p.maxDiscount = some m := Option.mem_def.mp hm
        rw [heq]
        exact capMax_le
      exact le_trans capTotal_le_self h2
    calc calculateDiscount p t ≤ round2 m := round2_mono h1
      _ = m := by rw [hn]; exact round2_cents n

/-- Witness for C5 at the spec's SAVE10 scenarios: a 10 percent code capped
at 15 applied to 200 stays within 0, the total, and the cap. -/
theorem calculateDiscount_bounded_witness :
    (0 ≤ calculateDiscount promoSave10 200 ∧ calculateDiscount promoSave10 200 ≤ 200 ∧
      calculateDiscount promoSave10 200 ≤ 15) ∧
      calculateDiscount promoSave10 200 = 15 ∧ calculateDiscount promoSave10 100 = 10 := by
  obtain ⟨h0, ht, hm⟩ := calculateDiscount_bounded promoSave10 200 (by norm_num)
    (by norm_num [promoSave10]) ⟨20000, by norm_num⟩ (by
      intro m hm
      have hm15 : (15 : ℚ) = m := by simpa [promoSave10, Option.mem_def] using hm
      subst hm15
      exact ⟨by norm_num, 1500, by norm_num⟩)
  exact ⟨⟨h0, ht, hm 15 rfl⟩, by decide, by decide⟩

/-- C6 counterexample: with an inactive code and an order total below the
minimum, two rules are violated; the apply operation surfaces only the first
violated rule in its error, not the complete list. -/
theorem applyPromoCode_surfaces_first_error_only :
    applyPromoCode [promoTwoBroken] "off" 10 10 = .error ⟨400, msgInactive⟩ ∧
      (validateForOrder promoTwoBroken 10 none 10).errors
        = [msgInactive, msgMinOrder promoTwoBroken] := by
  exact ⟨rfl, rfl⟩

/-- C6 (amended): validateForOrder runs all six checks and collects every
violated rule; validation succeeds exactly when no rule is violated; the
validate endpoint surfaces the complete list; the apply endpoint validates
without a category and surfaces only the first violated rule. -/
theorem promo_validation_collects_all_rules :
    (∀ p t cat now, (validateForOrder p t cat now).errors
        = (promoRules.filter (ruleViolated p t cat now)).map (ruleMessage p))
    ∧ (∀ p t cat now, (validateForOrder p t cat now).isValid = true
        ↔ ∀ r ∈ promoRules, ruleViolated p t cat now r = false)
    ∧ (∀ store code t cat now p, findPromo store code = some p →
        (validateForOrder p t cat now).isValid = false →
        validatePromoCode store code t cat now
          = .invalid ((validateForOrder p t cat now).errors.headD "")
              (validateForOrder p t cat now).errors)
    ∧ (∀ store code t now p e rest, findPromo store code = some p →
        (validateForOrder p t none now).errors = e :: rest →
        applyPromoCode store code t now = .error ⟨400, e⟩) := by
  have herr : ∀ p t cat now, (validateForOrder p t cat now).errors
      = (promoRules.filter (ruleViolated p t cat now)).map (ruleMessage p) := by
    intro p t cat now
    by_cases h1 : p.isActive = true <;>
      by_cases h2 : now < p.validFrom <;>
      by_cases h3 : now > p.validUntil <;>
      by_cases h4 : usageLimitReached p = true <;>
      by_cases h5 : t < p.minOrderAmount <;>
      by_cases h6 : categoryViolated p cat = true <;>
      simp [validateForOrder, promoRules, ruleViolated, ruleMessage, List.filter,
        h1, h2, h3, h4, h5, h6]
  refine ⟨herr, ?_, ?_, ?_⟩
  · intro p t cat now
    rw [show (validateForOrder p t cat now).isValid
        = (validateForOrder p t cat now).errors.isEmpty from rfl, herr p t cat now]
    simp [List.isEmpty_iff, List.filter_eq_nil_iff]
  · intro store code t cat now p hfind hinvalid
    simp [validatePromoCode, hfind, hinvalid]
  · intro store code t now p e rest hfind herrs
    have hval : (validateForOrder p t none now).isValid = false := by
      rw [show (validateForOrder p t none now).isValid
          = (validateForOrder p t none now).errors.isEmpty from rfl, herrs]
      rfl
    simp [applyPromoCode, hfind, hval, herrs]

/-- Witness for C6: the validate endpoint surfaces both violated rules of
promoTwoBroken, while the apply endpoint surfaces only the first. -/
theorem promo_validation_collects_all_rules_witness :
    validatePromoCode [promoTwoBroken] "OFF" 10 (some "electronics") 10
        = .invalid msgInactive [msgInactive, msgMinOrder promoTwoBroken] ∧
      applyPromoCode [promoTwoBroken] "OFF" 10 10 = .error ⟨400, msgInactive⟩ := by
  constructor
  · exact promo_validation_collects_all_rules.2.2.1 [promoTwoBroken] "OFF" 10
      (some "electronics") 10 promoTwoBroken rfl rfl
  · exact promo_validation_collects_all_rules.2.2.2 [promoTwoBroken] "OFF" 10 10
      promoTwoBroken msgInactive [msgMinOrder promoTwoBroken] rfl rfl

theorem validateItem_ok_rel {catalog : List Product} {it : ReqItem} {oi : OrderItem}
    (h : validateItem catalog it = .ok oi) : itemFromCatalog catalog it oi := by
  unfold validateItem at h
  split at h
  · exact absurd h (by simp)
  · rename_i p hp
    split at h
    · exact absurd h (by simp)
    · rename_i v hv
      split at h
      · exact absurd h (by simp)
      · have heq := Except.ok.inj h
        subst heq
        exact ⟨p, v, hp, hv, rfl, rfl, rfl⟩

theorem validateItems_ok_spec {catalog : List Product} :
    ∀ {items : List ReqItem} {ois : List OrderItem} {tot : ℚ},
      validateItems catalog items = .ok (ois, tot) →
      List.Forall₂ (itemFromCatalog catalog) items ois ∧
        tot = (ois.map (fun oi => oi.totalPrice)).sum := by
  intro items
  induction items with
  | nil =>
    intro ois tot h
    rw [show validateItems catalog [] = .ok ([], 0) from rfl] at h
    have heq := Except.ok.inj h
    injection heq with ha hb
    subst ha
    subst hb
    exact ⟨List.Forall₂.nil, by simp⟩
  | cons it rest ih =>
    intro ois tot h
    unfold validateItems at h
    split at h
    · exact absurd h (by simp)
    · rename_i oi hv
      split at h
      · exact absurd h (by simp)
      · rename_i ois' tot' hr
        have heq := Except.ok.inj h
        injection heq with ha hb
        obtain ⟨hall, hsum⟩ := ih hr
        subst ha
        subst hb
        exact ⟨List.Forall₂.cons (validateItem_ok_rel hv) hall, by simp [hsum]⟩

theorem validateItems_error_of_mem {catalog : List Product} {it : ReqItem} {e0 : ApiError} :
    ∀ {items : List ReqItem}, it ∈ items → validateItem catalog it = .error e0 →
      ∃ e, validateItems catalog items = .error e := by
  intro items
  induction items with
  | nil => intro hmem; cases hmem
  | cons x xs ih =>
    intro hmem herr
    cases hv : validateItem catalog x with
    | error e => exact ⟨e, by simp [validateItems, hv]⟩
    | ok oi =>
      rcases List.mem_cons.mp hmem with rfl | hmem'
      · rw [hv] at herr; cases herr
      · obtain ⟨e, he⟩ := ih hmem' herr
        exact ⟨e, by simp [validateItems, hv, he]⟩

theorem validateItem_strip (catalog : List Product) (it : ReqItem) :
    validateItem catalog { it with price := 0 } = validateItem catalog it := rfl

theorem validateItems_strip (catalog : List Product) (items : List ReqItem) :
    validateItems catalog (items.map (fun it => { it with price := 0 }))
      = validateItems catalog items := by
  induction items with
  | nil => rfl
  | cons x xs ih => simp [validateItems, validateItem_strip, ih]

theorem isEmpty_map {α β : Type} (f : α → β) (l : List α) :
    (l.map f).isEmpty = l.isEmpty := by
  cases l <;> rfl

/-- C1: a persisted order snapshots every line from the catalog product and
variant the request references, at the catalog's effective price, with the
amount the sum of the snapshotted line totals plus shipping; and the result
of createOrder is unchanged when every client-submitted unit price and the
client-submitted total are replaced by zero — they are never read. -/
theorem createOrder_price_integrity :
    (∀ st req y m d now order, (createOrder st req y m d now).1 = .ok order →
      List.Forall₂ (itemFromCatalog st.catalog) req.items order.items ∧
        order.amount = (order.items.map (fun oi => oi.totalPrice)).sum + req.shippingCost)
    ∧ (∀ st req y m d now,
        createOrder st (stripClientPrices req) y m d now = createOrder st req y m d now) := by
  constructor
  · intro st req y m d now order h
    unfold createOrder at h
    split at h
    · exact absurd h (by simp)
    · split at h
      · exact absurd h (by simp)
      · rename_i vitems vtotal hv
        simp only at h
        have heq := Except.ok.inj h
        obtain ⟨hall, hsum⟩ := validateItems_ok_spec hv
        subst heq
        exact ⟨hall, by simp [hsum]⟩
  · intro st req y m d now
    by_cases he : req.items.isEmpty = true
    · simp [createOrder, stripClientPrices, isEmpty_map, he]
    · rw [createOrder, createOrder]
      simp only [stripClientPrices, isEmpty_map, validateItems_strip]

/-- Witness for C1: the spec's scenario 1 produces an order with one line at
unit price 20, line total 60, and amount 60. -/
theorem createOrder_price_integrity_witness :
    (createOrder stateS1 reqS1 2026 10 11 0).1 = .ok ordS1 ∧
      List.Forall₂ (itemFromCatalog stateS1.catalog) reqS1.items ordS1.items ∧
      ordS1.amount = (ordS1.items.map (fun oi => oi.totalPrice)).sum + reqS1.shippingCost := by
  have h : (createOrder stateS1 reqS1 2026 10 11 0).1 = .ok ordS1 := rfl
  exact ⟨h, createOrder_price_integrity.1 stateS1 reqS1 2026 10 11 0 ordS1 h⟩

/-- C2: when any request line references a missing product or variant or
asks for more than the variant's stock, createOrder fails and returns the
state unchanged — no order appended, no stock or sells touched; the
per-line classification is 404 for a missing product or variant and 400
naming the product and SKU for a stock shortfall. -/
theorem createOrder_failure_preserves_state :
    (∀ st req y m d now it e0, it ∈ req.items →
      validateItem st.catalog it = .error e0 →
      ∃ e, createOrder st req y m d now = (.error e, st))
    ∧ (∀ catalog it, findProduct catalog it.productId = none →
        validateItem catalog it
          = .error ⟨404, "Product not found: "
              ++ (if it.name = "" then it.productId else it.name)⟩)
    ∧ (∀ catalog it p, findProduct catalog it.productId = some p →
        findVariant p it.variantId = none →
        validateItem catalog it = .error ⟨404, "Variant not found for product " ++ p.name⟩)
    ∧ (∀ catalog it p v, findProduct catalog it.productId = some p →
        findVariant p it.variantId = some v → v.stock < it.quantity →
        validateItem catalog it
          = .error ⟨400, "Insufficient stock for " ++ p.name ++ " (" ++ v.sku ++ ")"⟩) := by
  refine ⟨?_, ?_, ?_, ?_⟩
  · intro st req y m d now it e0 hmem herr
    obtain ⟨e, he⟩ := validateItems_error_of_mem hmem herr
    have hne : req.items.isEmpty = false := by
      cases hl : req.items with
      | nil => rw [hl] at hmem; cases hmem
      | cons a l => rfl
    exact ⟨e, by rw [createOrder, if_neg (by simp [hne]), he]⟩
  · intro catalog it hp
    simp [validateItem, hp]
  · intro catalog it p hp hv
    simp [validateItem, hp, hv]
  · intro catalog it p v hp hv hs
    simp [validateItem, hp, hv, hs]

/-- Witness for C2: the spec's scenario 2 (stock 2, quantity 3) fails with
the insufficient-stock error naming P1 and its SKU, and leaves the state
unchanged. -/
theorem createOrder_failure_preserves_state_witness :
    (createOrder stateS2 reqS1 2026 10 11 0).2 = stateS2 ∧
      createOrder stateS2 reqS1 2026 10 11 0
        = (.error ⟨400, "Insufficient stock for P1 (SKU1)"⟩, stateS2) ∧
      validateItem stateS2.catalog
          { productId := "P1", variantId := "V1", name := "P1", price := 999, quantity := 3 }
        = .error ⟨400, "Insufficient stock for P1 (SKU1)"⟩ := by
  obtain ⟨e, he⟩ := createOrder_failure_preserves_state.1 stateS2 reqS1 2026 10 11 0
    { productId := "P1", variantId := "V1", name := "P1", price := 999, quantity := 3 }
    ⟨400, "Insufficient stock for P1 (SKU1)"⟩ (by decide) rfl
  refine ⟨by rw [he], rfl, ?_⟩
  exact createOrder_failure_preserves_state.2.2.2 stateS2.catalog
    { productId := "P1", variantId := "V1", name := "P1", price := 999, quantity := 3 }
    productS2 variantS2 rfl rfl (by decide)

theorem foldl_latest_spec (l : List Order) (b : Order) :
    (l.foldl (fun b' o' => if o'.createdAt > b'.createdAt then o' else b') b) ∈ b :: l ∧
      ∀ x ∈ b :: l,
        x.createdAt
          ≤ (l.foldl (fun b' o' => if o'.createdAt > b'.createdAt then o' else b') b).createdAt := by
  induction l generalizing b with
  | nil =>
    refine ⟨List.mem_cons_self b [], ?_⟩
    intro x hx
    rcases List.mem_cons.mp hx with rfl | hx'
    · exact le_refl _
    · cases hx'
  | cons o os ih =>
    simp only [List.foldl_cons]
    set c := if o.createdAt > b.createdAt then o else b with hc
    obtain ⟨hmem, hge⟩ := ih c
    have hbc : b.createdAt ≤ c.createdAt := by
      by_cases h : o.createdAt > b.createdAt <;> simp [hc, h] <;> omega
    have hoc : o.createdAt ≤ c.createdAt := by
      by_cases h : o.createdAt > b.createdAt <;> simp [hc, h] <;> omega
    constructor
    · rcases List.mem_cons.mp hmem with heq | hmem'
      · rw [heq]
        by_cases h : o.createdAt > b.createdAt <;> simp [hc, h]
      · exact List.mem_cons_of_mem b (List.mem_cons_of_mem o hmem')
    · intro x hx
      rcases List.mem_cons.mp hx with rfl | hx'
      · exact le_trans hbc (hge c (List.mem_cons_self c os))
      · rcases List.mem_cons.mp hx' with rfl | hx''
        · exact le_trans hoc (hge c (List.mem_cons_self c os))
        · exact hge x (List.mem_cons_of_mem c hx'')

theorem latestMatching_eq_unique_max {orders : List Order} {key : String} {o : Order}
    (hmem : o ∈ orders) (hpfx : startsWithKey key o.orderId = true)
    (hmax : ∀ o' ∈ orders, startsWithKey key o'.orderId = true → o' ≠ o →
      o'.createdAt < o.createdAt) :
    latestMatching orders key = some o := by
  have hol : o ∈ orders.filter (fun o' => startsWithKey key o'.orderId) :=
    List.mem_filter.mpr ⟨hmem, hpfx⟩
  unfold latestMatching
  split
  · rename_i hnil
    rw [hnil] at hol; cases hol
  · rename_i x xs hcons
    obtain ⟨hrmem, hrge⟩ := foldl_latest_spec xs x
    have hrfilter : (xs.foldl (fun b' o' => if o'.createdAt > b'.createdAt then o' else b') x)
        ∈ orders.filter (fun o' => startsWithKey key o'.orderId) := hcons ▸ hrmem
    have hr2 := List.mem_filter.mp hrfilter
    by_cases hro : (xs.foldl (fun b' o' => if o'.createdAt > b'.createdAt then o' else b') x) = o
    · rw [hro]
    · exfalso
      have h1 := hmax _ hr2.1 hr2.2 hro
      have h2 := hrge o (hcons ▸ hol)
      exact absurd h1 (not_lt.mpr h2)

/-- C4 counterexample: with today's orders 0002 (created first) and 0001
(created last), generateOrderId parses the most recently created order and
returns 0002 — colliding with the existing 0002 — while the spec's
highest-sequence rule yields 0003. -/
theorem generateOrderId_ignores_highest_seq :
    generateOrderId [ordSeq2, ordSeq1] 2026 10 11 = "ORD202610110002" ∧
      specOrderId [ordSeq2, ordSeq1] 2026 10 11 = "ORD202610110003" ∧
      generateOrderId [ordSeq2, ordSeq1] 2026 10 11 = ordSeq2.orderId := by
  refine ⟨?_, ?_, ?_⟩ <;> decide

/-- C4 (amended): the generated id is the fixed ORD prefix plus the date
plus the zero-padded successor of the sequence parsed from the most
recently created order of the current date, and 0001 when no order of the
current date exists. -/
theorem generateOrderId_uses_latest_created :
    (∀ orders y m d,
      (∀ o ∈ orders, startsWithKey (todayKey y m d) o.orderId = false) →
      generateOrderId orders y m d = todayKey y m d ++ "0001")
    ∧ (∀ orders y m d o n, o ∈ orders →
        startsWithKey (todayKey y m d) o.orderId = true →
        (∀ o' ∈ orders, startsWithKey (todayKey y m d) o'.orderId = true → o' ≠ o →
          o'.createdAt < o.createdAt) →
        parseIntDigits (dropKey (todayKey y m d) o.orderId) = some n →
        generateOrderId orders y m d
          = todayKey y m d ++ padStart 4 '0' (toString (n + 1))) := by
  constructor
  · intro orders y m d hall
    have hnone : latestMatching orders (todayKey y m d) = none := by
      unfold latestMatching
      rw [List.filter_eq_nil_iff.mpr (by intro a ha; simp [hall a ha])]
    simp only [generateOrderId, hnone]
    have hpad : padStart 4 '0' (toString 1) = "0001" := by decide
    rw [hpad]
  · intro orders y m d o n hmem hpfx hmax hparse
    have hlatest := latestMatching_eq_unique_max hmem hpfx hmax
    simp [generateOrderId, hlatest, hparse]

/-- Witness for C4: on the counterexample store the amended rule gives the
successor of the most recently created order's sequence 0001. -/
theorem generateOrderId_uses_latest_created_witness :
    generateOrderId [ordSeq2, ordSeq1] 2026 10 11
      = todayKey 2026 10 11 ++ padStart 4 '0' (toString 2) := by
  exact generateOrderId_uses_latest_created.2 [ordSeq2, ordSeq1] 2026 10 11 ordSeq1 1
    (by decide) (by decide) (by decide) (by decide)

/-- C3: the stock decrement is an unconditional $inc with no stock condition,
so it cannot reject; two concurrent checkouts of quantity 2 against stock 3
both pass the step-2 pre-check and both commit, leaving stock -1 (below
zero) and 4 units sold of an initial stock of 3. -/
theorem concurrent_checkouts_oversell :
    (coRun [productC3] [sessC3, sessC3]
        [.validate 0, .validate 1, .commit 0, .commit 1]).1
      = [{ productC3 with variants := [{ variantC3 with stock := -1, sells := 4 }] }] ∧
      (coRun [productC3] [sessC3, sessC3]
          [.validate 0, .validate 1, .commit 0, .commit 1]).2
        = [{ sessC3 with phase := .committed }, { sessC3 with phase := .committed }] ∧
      ({ variantC3 with stock := -1, sells := 4 } : Variant).stock < 0 ∧
      ({ variantC3 with stock := -1, sells := 4 } : Variant).sells > variantC3.stock := by
  refine ⟨?_, ?_, ?_, ?_⟩ <;> decide

/-- C9 counterexample: a stale record in the active, non-terminal stage
cart_added is left untouched by the sweep instead of becoming abandoned. -/
theorem sweep_skips_stale_cart_added :
    isActiveStage staleCartAdded.stage = true ∧
      staleCartAdded.lastActivityAt < 172800000 - 86400000 ∧
      sweep 172800000 86400000 [staleCartAdded] = [staleCartAdded] ∧
      (sweep 172800000 86400000 [staleCartAdded]).map (fun r => r.stage)
        ≠ [Stage.abandoned] := by
  refine ⟨?_, ?_, ?_, ?_⟩ <;> decide

/-- C9 (amended): the sweep transitions exactly the records in stage
checkout_started or checkout_info_filled whose last activity is older than
the threshold, stamping the abandonment time; every other record — including
stale records still in cart_added — is unchanged; and the sweep is
idempotent. -/
theorem sweep_targets_and_idempotence :
    (∀ now θ r, sweepMatches now θ r = true →
      sweepOne now θ r = { r with stage := .abandoned, abandonedAt := some now })
    ∧ (∀ now θ r, sweepMatches now θ r = false → sweepOne now θ r = r)
    ∧ (∀ now θ recs, sweep now θ (sweep now θ recs) = sweep now θ recs) := by
  have h1 : ∀ now θ r, sweepMatches now θ r = true →
      sweepOne now θ r = { r with stage := .abandoned, abandonedAt := some now } := by
    intro now θ r h
    simp [sweepOne, h]
  have h2 : ∀ now θ r, sweepMatches now θ r = false → sweepOne now θ r = r := by
    intro now θ r h
    simp [sweepOne, h]
  refine ⟨h1, h2, ?_⟩
  intro now θ recs
  unfold sweep
  rw [List.map_map]
  apply List.map_congr_left
  intro r _
  show sweepOne now θ (sweepOne now θ r) = sweepOne now θ r
  by_cases h : sweepMatches now θ r = true
  · rw [h1 now θ r h]
    apply h2
    simp [sweepMatches]
  · have hf : sweepMatches now θ r = false := by simpa using h
    rw [h2 now θ r hf]
    exact h2 now θ r hf

/-- Witness for C9 at scenario 6: a checkout_info_filled record two hours
stale under a one-hour threshold becomes abandoned with the sweep time
stamped. -/
theorem sweep_targets_and_idempotence_witness :
    sweepOne 7200000 3600000 staleInfoFilled
      = { staleInfoFilled with stage := .abandoned, abandonedAt := some 7200000 } := by
  exact sweep_targets_and_idempotence.1 7200000 3600000 staleInfoFilled (by decide)

/-- C10 counterexample: replace-contents stores a client list with two lines
for the same product+variant verbatim, so the persisted cart violates the
at-most-one-line-per-key invariant. -/
theorem updateCart_persists_duplicate_lines :
    (updateCart [] (.user "u") [⟨"P", "V", 1⟩, ⟨"P", "V", 2⟩] 0 1).1
        = [{ cid := 1, user := some "u", sessionId := none,
             items := [⟨"P", "V", 1⟩, ⟨"P", "V", 2⟩], lastActivityAt := 0 }] ∧
      ¬ NoDupKeys [(⟨"P", "V", 1⟩ : CItem), ⟨"P", "V", 2⟩] := by
  constructor
  · decide
  · unfold NoDupKeys
    decide

theorem updateFirst_map_key {α β : Type} (l : List α) (p : α → Bool) (g : α → α)
    (k : α → β) (hk : ∀ x, k (g x) = k x) : (updateFirst l p g).map k = l.map k := by
  induction l with
  | nil => rfl
  | cons x xs ih =>
    by_cases hp : p x = true
    · simp [updateFirst, hp, hk]
    · simp [updateFirst, hp, ih]

theorem noDupKeys_mergeOne {items : List CItem} {g : CItem} (h : NoDupKeys items) :
    NoDupKeys (mergeOne items g) := by
  unfold mergeOne
  by_cases hany : items.any (keyMatch g) = true
  · rw [if_pos hany]
    unfold NoDupKeys at h ⊢
    rw [updateFirst_map_key items (keyMatch g)
      (fun it => { it with quantity := it.quantity + g.quantity })
      (fun it => (it.product, it.variantId)) (fun x => rfl)]
    exact h
  · rw [if_neg hany]
    unfold NoDupKeys at h ⊢
    rw [List.map_append, List.nodup_append]
    refine ⟨h, by simp, ?_⟩
    intro a ha hb
    simp only [List.map_cons, List.map_nil, List.mem_singleton] at hb
    obtain ⟨it, hit, hak⟩ := List.mem_map.mp ha
    have hanyf : items.any (keyMatch g) = false := by simpa using hany
    have hgit : ¬ keyMatch g it = true := by
      intro hk
      exact absurd (List.any_eq_true.mpr ⟨it, hit, hk⟩) (by simp [hanyf])
    rw [← hak] at hb
    injection hb with hp hv
    exact hgit (by simp [keyMatch, hp, hv])

theorem noDupKeys_mergeItems : ∀ (gs items : List CItem),
    NoDupKeys items → NoDupKeys (mergeItems items gs) := by
  intro gs
  induction gs with
  | nil => intro items h; exact h
  | cons g gs ih =>
    intro items h
    exact ih _ (noDupKeys_mergeOne h)

/-- C10 (amended): the merge operation preserves the at-most-one-line-per-
product+variant invariant, but replace-contents persists the client item
list verbatim, so after a replace the invariant holds exactly when the
client list itself has no duplicate keys. -/
theorem cart_line_key_uniqueness :
    (∀ items gs, NoDupKeys items → NoDupKeys (mergeItems items gs))
    ∧ (∀ carts owner items now fid c,
        (updateCart carts owner items now fid).2 = .cart c → c.items = items) := by
  constructor
  · intro items gs h
    exact noDupKeys_mergeItems gs items h
  · intro carts owner items now fid c h
    unfold updateCart at h
    split at h
    · dsimp only at h
      cases h
    · split at h
      · dsimp only at h
        injection h with h'
        rw [← h']
      · dsimp only at h
        injection h with h'
        rw [← h']

/-- Witness for C10: merging a line into a one-line cart keeps keys unique,
and a replace with two distinct keys stores exactly the client list. -/
theorem cart_line_key_uniqueness_witness :
    NoDupKeys (mergeItems [⟨"A", "V", 1⟩] [⟨"A", "V", 2⟩]) ∧
      ({ cid := 1, user := some "u", sessionId := none,
         items := [⟨"P", "V", 1⟩, ⟨"Q", "V", 2⟩], lastActivityAt := 0 } : CartDoc).items
        = [(⟨"P", "V", 1⟩ : CItem), ⟨"Q", "V", 2⟩] := by
  constructor
  · exact cart_line_key_uniqueness.1 [⟨"A", "V", 1⟩] [⟨"A", "V", 2⟩]
      (by unfold NoDupKeys; decide)
  · exact cart_line_key_uniqueness.2 [] (Owner.user "u")
      [⟨"P", "V", 1⟩, ⟨"Q", "V", 2⟩] 0 1
      { cid := 1, user := some "u", sessionId := none,
        items := [⟨"P", "V", 1⟩, ⟨"Q", "V", 2⟩], lastActivityAt := 0 } rfl

theorem qtyOf_cons (x : CItem) (xs : List CItem) (pid vid : String) :
    qtyOf (x :: xs) pid vid
      = (if x.product == pid && x.variantId == vid then x.quantity else 0)
        + qtyOf xs pid vid := by
  by_cases h : (x.product == pid && x.variantId == vid) = true
  · simp [qtyOf, List.filter_cons, h]
  · simp [qtyOf, List.filter_cons, h]

theorem qtyOf_append (l1 l2 : List CItem) (pid vid : String) :
    qtyOf (l1 ++ l2) pid vid = qtyOf l1 pid vid + qtyOf l2 pid vid := by
  simp [qtyOf, List.filter_append]

theorem qtyOf_updateFirst (g : CItem) (pid vid : String) :
    ∀ items : List CItem, items.any (keyMatch g) = true →
      qtyOf (updateFirst items (keyMatch g)
          (fun it => { it with quantity := it.quantity + g.quantity })) pid vid
        = qtyOf items pid vid
          + (if g.product == pid && g.variantId == vid then g.quantity else 0) := by
  intro items
  induction items with
  | nil => intro h; simp at h
  | cons x xs ih =>
    intro hany
    by_cases hx : keyMatch g x = true
    · obtain ⟨hxp, hxv⟩ : x.product = g.product ∧ x.variantId = g.variantId := by
        simpa [keyMatch] using hx
      rw [show updateFirst (x :: xs) (keyMatch g)
            (fun it => { it with quantity := it.quantity + g.quantity })
          = { x with quantity := x.quantity + g.quantity } :: xs from by
        simp [updateFirst, hx]]
      rw [qtyOf_cons, qtyOf_cons]
      by_cases hsel : (g.product == pid && g.variantId == vid) = true
      · simp only [hxp, hxv, hsel]
        simp
        ring
      · simp only [hxp, hxv, hsel]
        simp [hsel]
    · have hany' : xs.any (keyMatch g) = true := by simpa [hx] using hany
      rw [show updateFirst (x :: xs) (keyMatch g)
            (fun it => { it with quantity := it.quantity + g.quantity })
          = x :: updateFirst xs (keyMatch g)
              (fun it => { it with quantity := it.quantity + g.quantity }) from by
        simp [updateFirst, hx]]
      rw [qtyOf_cons, qtyOf_cons, ih hany']
      ring

theorem qtyOf_mergeOne (items : List CItem) (g : CItem) (pid vid : String) :
    qtyOf (mergeOne items g) pid vid
      = qtyOf items pid vid
        + (if g.product == pid && g.variantId == vid then g.quantity else 0) := by
  unfold mergeOne
  by_cases hany : items.any (keyMatch g) = true
  · rw [if_pos hany]
    exact qtyOf_updateFirst g pid vid items hany
  · rw [if_neg hany, qtyOf_append]
    rw [qtyOf_cons]
    simp [qtyOf]

theorem qtyOf_mergeItems : ∀ (gs items : List CItem) (pid vid : String),
    qtyOf (mergeItems items gs) pid vid = qtyOf items pid vid + qtyOf gs pid vid := by
  intro gs
  induction gs with
  | nil =>
    intro items pid vid
    simp [mergeItems, qtyOf]
  | cons g gs ih =>
    intro items pid vid
    rw [show mergeItems items (g :: gs) = mergeItems (mergeOne items g) gs from rfl]
    rw [ih, qtyOf_mergeOne, qtyOf_cons]
    ring

theorem find?_filter_eq {α : Type} (l : List α) (keep p : α → Bool)
    (h : ∀ x ∈ l, keep x = false → p x = false) :
    (l.filter keep).find? p = l.find? p := by
  induction l with
  | nil => rfl
  | cons x xs ih =>
    have ih' := ih (fun y hy hk => h y (List.mem_cons_of_mem x hy) hk)
    by_cases hk : keep x = true
    · cases hp : p x
      · rw [List.filter_cons_of_pos hk, List.find?_cons_of_neg _ (by simp [hp]),
          List.find?_cons_of_neg _ (by simp [hp])]
        exact ih'
      · rw [List.filter_cons_of_pos hk, List.find?_cons_of_pos _ (by simp [hp]),
          List.find?_cons_of_pos _ (by simp [hp])]
    · have hkf : keep x = false := by simpa using hk
      have hp : p x = false := h x (List.mem_cons_self x xs) hkf
      rw [List.filter_cons_of_neg (by simp [hkf]), List.find?_cons_of_neg _ (by simp [hp])]
      exact ih'

/-- C7: merging is a no-op returning the account cart unchanged when the
guest cart is absent or empty (and no body fallback is supplied); the merge
of line lists is additive on every product+variant key; and a merge of a
nonempty guest cart responds with a cart whose per-key quantity is the sum
of the account cart's and the guest cart's. -/
theorem mergeCart_additive :
    (∀ carts uid s now fid,
      (∀ g, findBySession carts s = some g → g.items = []) →
      mergeCart carts uid (some s) [] now fid
        = (carts, match findByUser carts uid with
                  | some a => .cart a
                  | none => .emptyItems))
    ∧ (∀ items gs pid vid,
        qtyOf (mergeItems items gs) pid vid = qtyOf items pid vid + qtyOf gs pid vid)
    ∧ (∀ carts uid s g now fid, findBySession carts s = some g → g.items ≠ [] →
        g.user = none → (∀ c ∈ carts, c.cid = g.cid → c = g) →
        ∃ merged, (mergeCart carts uid (some s) [] now fid).2 = .cart merged ∧
          ∀ pid vid, qtyOf merged.items pid vid
            = qtyOf ((findByUser carts uid).elim [] (fun a => a.items)) pid vid
              + qtyOf g.items pid vid) := by
  refine ⟨?_, fun items gs pid vid => qtyOf_mergeItems gs items pid vid, ?_⟩
  · intro carts uid s now fid hall
    cases hf : findBySession carts s with
    | none => cases hu : findByUser carts uid <;> simp [mergeCart, mergeCartOps, hf, hu]
    | some g =>
      have hg : g.items = [] := hall g hf
      cases hu : findByUser carts uid <;> simp [mergeCart, mergeCartOps, hf, hg, hu]
  · intro carts uid s g now fid hf hne huser huniq
    have hne' : g.items.isEmpty = false := by
      cases hgi : g.items with
      | nil => exact absurd hgi hne
      | cons a l => rfl
    have hfind : findByUser (applyCartOp carts (.deleteCart g.cid)) uid
        = findByUser carts uid := by
      unfold applyCartOp findByUser
      apply find?_filter_eq
      intro x hx hk
      have hcid : x.cid = g.cid := by simpa using hk
      have hxg : x = g := huniq x hx hcid
      subst hxg
      simp [huser]
    cases hu : findByUser carts uid with
    | some a =>
      refine ⟨{ a with items := mergeItems a.items g.items, lastActivityAt := now }, ?_, ?_⟩
      · simp [mergeCart, mergeCartOps, hf, hne', hfind, hu]
      · intro pid vid
        simp only [hu, Option.elim]
        exact qtyOf_mergeItems g.items a.items pid vid
    | none =>
      refine ⟨{ cid := fid, user := some uid, sessionId := none,
                items := mergeItems [] g.items, lastActivityAt := now }, ?_, ?_⟩
      · simp [mergeCart, mergeCartOps, hf, hne', hfind, hu]
      · intro pid vid
        simp only [hu, Option.elim]
        rw [qtyOf_mergeItems]

/-- Witness for C7: the spec's example — guest A:2, B:1 into account A:1,
C:3 — responds with a cart holding A:3, B:1, C:3. -/
theorem mergeCart_additive_witness :
    (mergeCart [guestCartAB, acctCartAC] "u" (some "s") [] 5 9).2 = .cart mergedW ∧
      qtyOf mergedW.items "A" "V" = 3 ∧ qtyOf mergedW.items "B" "V" = 1 ∧
      qtyOf mergedW.items "C" "V" = 3 := by
  obtain ⟨merged, hresp, hq⟩ := mergeCart_additive.2.2 [guestCartAB, acctCartAC] "u" "s"
    guestCartAB 5 9 (by decide) (by decide) (by decide) (by decide)
  have hW : (mergeCart [guestCartAB, acctCartAC] "u" (some "s") [] 5 9).2
      = .cart mergedW := rfl
  have hmerged : merged = mergedW := by
    have h2 : CartResp.cart merged = CartResp.cart mergedW := hresp.symm.trans hW
    injection h2
  refine ⟨hW, ?_, ?_, ?_⟩
  · have h := hq "A" "V"
    rw [hmerged] at h
    rw [h]
    decide
  · have h := hq "B" "V"
    rw [hmerged] at h
    rw [h]
    decide
  · have h := hq "C" "V"
    rw [hmerged] at h
    rw [h]
    decide

/-- C8: mergeCart issues the guest-cart deletion as its first store write
and the merged account-cart save only second; after the first write the
guest cart is gone while its items are not yet persisted anywhere — the
intermediate state the claim says never exists. -/
theorem mergeCart_deletes_guest_before_merge_write :
    (mergeCartOps [guestCartAB] "u" (some "s") [] 5 9).1
        = [.deleteCart 1,
           .saveCart { cid := 9, user := some "u", sessionId := none,
                       items := [⟨"A", "V", 2⟩, ⟨"B", "V", 1⟩], lastActivityAt := 5 }] ∧
      applyCartOp [guestCartAB] (.deleteCart 1) = [] ∧
      findBySession (applyCartOp [guestCartAB] (.deleteCart 1)) "s" = none ∧
      findByUser (applyCartOp [guestCartAB] (.deleteCart 1)) "u" = none := by
  refine ⟨?_, ?_, ?_, ?_⟩ <;> decide

end Theorems

end ECom
